import Mathlib

/-!
Verification of the flashPTP daemon core against its natural-language
specification.  The definitions below are a shallow embedding of the C++
sources (src/include/flashptp/..., src/src/flashptp/...): machine integers
are modelled as Nat/Int with explicit reductions modulo 2^w where the source
relies on unsigned wrap-around, C++ `/` on signed integers is Int.tdiv
(truncation towards zero), and the `double` fields of the source are
modelled as exact rationals.  Fallible operations return Option.
-/

namespace FlashPTP

/-- Two's-complement wrap of a mathematical integer into the int64 range,
matching the bit pattern an `int64_t` would hold after overflow. -/
def wrap64 (x : Int) : Int := (x + 2 ^ 63).emod (2 ^ 64) - 2 ^ 63

/-- INT64_MAX, used by the source as a sentinel for unset history slots. -/
def int64Max : Int := 2 ^ 63 - 1

/-- INT16_MAX, used by ServerMode::processRequest as the "no UTC offset"
sentinel value. -/
def int16Max : Int := 32767

/-- enum class PTPTimestampLevel (common/defines.h). -/
inductive PTPTimestampLevel
  | invalid
  | user
  | socket
  | hardware
deriving DecidableEq, Repr

/-- Numeric value of the PTPTimestampLevel enumerators, used where the
source compares levels with the relational operators. -/
def PTPTimestampLevel.toNat : PTPTimestampLevel → Nat
  | .invalid => 0
  | .user => 1
  | .socket => 2
  | .hardware => 3

/-- struct PTP2Timestamp (common/defines.h): 48-bit seconds plus 32-bit
nanoseconds.  The six seconds bytes are modelled as the Nat they encode. -/
structure PTP2Timestamp where
  sec : Nat
  ns : Nat
deriving DecidableEq, Repr

/-- PTP2Timestamp::empty: all seconds bytes and the nanoseconds are zero. -/
def PTP2Timestamp.isEmpty (t : PTP2Timestamp) : Bool := t.sec == 0 && t.ns == 0

/-- The int64 nanosecond value `seconds() * 1000000000LL + (int64_t)ns`
that both PTP2Timestamp operators build for each operand. -/
def PTP2Timestamp.toNs (t : PTP2Timestamp) : Int :=
  (t.sec : Int) * 1000000000 + (t.ns : Int)

/-- operator-(const PTP2Timestamp&, const PTP2Timestamp&). -/
def PTP2Timestamp.sub (l r : PTP2Timestamp) : Int := l.toNs - r.toNs

/-- operator+(const PTP2Timestamp&, const PTP2Timestamp&). -/
def PTP2Timestamp.add (l r : PTP2Timestamp) : Int := l.toNs + r.toNs

/-- struct PTP2TimeInterval (common/defines.h): signed 64-bit scaled
nanoseconds (low 16 bits are a sub-nanosecond fraction). -/
structure PTP2TimeInterval where
  scaledNanoseconds : Int
deriving DecidableEq, Repr

/-- PTP2TimeInterval::nanoseconds (common/defines.h:359).  The source runs
`ns = (scaledNanoseconds >> 16) & 0xffffffffffff` — an arithmetic shift of
the int64 bit pattern followed by a mask to the low 48 bits, which is
`(v.fdiv 65536).emod (2^48)` on the represented value — and then attempts
`if (ns < 0) { ns |= 0xffff000000000000; ns += 1; }`; on the int64 value
that branch body amounts to `ns - 2^48 + 1`. -/
def PTP2TimeInterval.nanoseconds (i : PTP2TimeInterval) : Int :=
  let ns : Int := (i.scaledNanoseconds.fdiv 65536).emod (2 ^ 48)
  if ns < 0 then ns - 2 ^ 48 + 1 else ns

/-- PTP2TimeInterval::operator+= on the scaled-nanosecond int64 field. -/
def PTP2TimeInterval.addScaled (l r : PTP2TimeInterval) : PTP2TimeInterval :=
  ⟨wrap64 (l.scaledNanoseconds + r.scaledNanoseconds)⟩

/-- struct FlashPTPServerStateDS (common/defines.h). -/
structure FlashPTPServerStateDS where
  gmPriority1 : Nat
  gmClockClass : Nat
  gmClockAccuracy : Nat
  gmClockVariance : Nat
  gmPriority2 : Nat
  gmClockID : Nat
  stepsRemoved : Nat
  timeSource : Nat
deriving DecidableEq, Repr

/-- The default-constructed FlashPTPServerStateDS (all fields zero). -/
def FlashPTPServerStateDS.zero : FlashPTPServerStateDS :=
  ⟨0, 0, 0, 0, 0, 0, 0, 0⟩

/-- class Sequence (client/sequence.h).  `timedOut` models the outcome of
the monotonic-clock timeout test at the point the sequence is examined;
real time enters the embedding only through this field. -/
structure Sequence where
  sequenceID : Nat
  msTimeout : Nat
  timestampLevel : PTPTimestampLevel
  t1 : PTP2Timestamp
  t2 : PTP2Timestamp
  t3 : PTP2Timestamp
  t4 : PTP2Timestamp
  t2Correction : PTP2TimeInterval
  syncCorrection : PTP2TimeInterval
  followUpCorrection : PTP2TimeInterval
  t4Correction : PTP2TimeInterval
  error : Nat
  utcCorrection : Int
  serverStateDSRequested : Bool
  serverStateDSValid : Bool
  serverStateDS : FlashPTPServerStateDS
  c2sDelay : Int
  s2cDelay : Int
  offset : Int
  timedOut : Bool
deriving DecidableEq, Repr

def Sequence.hasT1 (s : Sequence) : Bool := !s.t1.isEmpty
def Sequence.hasT2 (s : Sequence) : Bool := !s.t2.isEmpty
def Sequence.hasT3 (s : Sequence) : Bool := !s.t3.isEmpty
def Sequence.hasT4 (s : Sequence) : Bool := !s.t4.isEmpty

/-- Sequence::complete: all four timestamps have been gathered. -/
def Sequence.complete (s : Sequence) : Bool :=
  s.hasT1 && s.hasT2 && s.hasT3 && s.hasT4

/-- Sequence::finish (client/sequence.h:152): compute the client-to-server
and server-to-client delays and the offset from T1..T4 and the gathered
corrections. -/
def Sequence.finish (s : Sequence) : Sequence :=
  { s with
    c2sDelay := s.t2.sub s.t1 - s.t2Correction.nanoseconds - s.utcCorrection
    s2cDelay := s.t4.sub s.t3 - s.t4Correction.nanoseconds + s.utcCorrection
    offset :=
      ((s.t2.add s.t3 - s.t2Correction.nanoseconds - s.utcCorrection) -
       (s.t1.add s.t4 - s.t4Correction.nanoseconds - s.utcCorrection)).tdiv 2 }

/-- Sequence::meanPathDelay. -/
def Sequence.meanPathDelay (s : Sequence) : Int :=
  (s.c2sDelay + s.s2cDelay).tdiv 2

/-! ## Filter stage (filter/filter.h, filter/filter.cpp, filter/luckyPacket.cpp,
filter/medianOffset.cpp) -/

/-- enum class FilterType. -/
inductive FilterType
  | luckyPacket
  | medianOffset
deriving DecidableEq, Repr

/-- class Filter: the common per-filter state.  The `unfiltered` deque
holds the buffered sequences, oldest first (the source pushes to the back
and evicts from the front). -/
structure Filter where
  type : FilterType
  size : Nat
  pick : Nat
  unfiltered : List Sequence
deriving DecidableEq, Repr

/-- The `while (_unfiltered.size() >= _size) pop_front()` eviction loop of
Filter::insert, dropping oldest entries until fewer than `size` remain. -/
def Filter.evictOldest (size : Nat) : List Sequence → List Sequence
  | [] => []
  | s :: rest =>
    if size ≤ (s :: rest).length then Filter.evictOldest size rest else s :: rest

/-- Filter::insert (filter/filter.cpp:157): clear the buffer when the new
sequence's timestamp level differs from the last buffered one, evict the
oldest entries while the buffer is full, then append. -/
def Filter.insert (f : Filter) (seq : Sequence) : Filter :=
  let buf :=
    match f.unfiltered.getLast? with
    | some last => if last.timestampLevel ≠ seq.timestampLevel then [] else f.unfiltered
    | none => f.unfiltered
  { f with unfiltered := Filter.evictOldest f.size buf ++ [seq] }

/-- Filter::clear. -/
def Filter.clear (f : Filter) : Filter := { f with unfiltered := [] }

/-- Filter::full: `_unfiltered.size() >= _size`. -/
def Filter.full (f : Filter) : Bool := f.size ≤ f.unfiltered.length

/-- Filter::empty. -/
def Filter.isEmpty (f : Filter) : Bool := f.unfiltered.isEmpty

/-- Insertion of one element into a list sorted by the strict comparator of
std::sort in MedianOffset::filter; the stable insertion realizes one
sorted-permutation outcome of the (tie-unspecified) std::sort call. -/
def insertByOffset (x : Sequence) : List Sequence → List Sequence
  | [] => [x]
  | y :: rest =>
    if x.offset < y.offset then x :: y :: rest else y :: insertByOffset x rest

/-- The `std::sort(..., a->offset() < b->offset())` call of
MedianOffset::filter: sort ascending by offset. -/
def sortByOffset (l : List Sequence) : List Sequence :=
  l.foldr insertByOffset []

/-- The extraction loop of MedianOffset::filter:
`while (output.size() < _pick && _unfiltered.size() > 2)` extract the
element at index `size() / 2` (the fuel is the remaining number of picks). -/
def medianDrain : Nat → List Sequence → List Sequence
  | 0, _ => []
  | k + 1, l =>
    if 2 < l.length then
      match l[l.length / 2]? with
      | some x => x :: medianDrain k (l.eraseIdx (l.length / 2))
      | none => []
    else []

/-- MedianOffset::filter (filter/medianOffset.cpp:35).  Returns the updated
filter state and the sequences appended to the output deque; all
non-extracted buffered sequences are deleted. -/
def MedianOffset.filter (f : Filter) : Filter × List Sequence :=
  if f.unfiltered.length < f.size then (f, [])
  else
    let sorted := sortByOffset f.unfiltered
    ({ f with unfiltered := [] }, medianDrain f.pick sorted)

/-- The inner scan of LuckyPacket::filter: starting from `delay = INT64_MAX`,
find the (first) index holding the smallest `|meanPathDelay|`. -/
def luckyBest (l : List Sequence) : Int × Nat :=
  l.enum.foldl
    (fun (best : Int × Nat) (p : Nat × Sequence) =>
      if |p.2.meanPathDelay| < best.1 then (|p.2.meanPathDelay|, p.1) else best)
    (int64Max, 0)

/-- The extraction loop of LuckyPacket::filter
(`while (output.size() < _pick)` with break once no element is found). -/
def luckyDrain : Nat → List Sequence → List Sequence
  | 0, _ => []
  | k + 1, l =>
    let best := luckyBest l
    if best.1 ≠ int64Max then
      match l[best.2]? with
      | some x => x :: luckyDrain k (l.eraseIdx best.2)
      | none => []
    else []

/-- LuckyPacket::filter (filter/luckyPacket.cpp:34). -/
def LuckyPacket.filter (f : Filter) : Filter × List Sequence :=
  if f.unfiltered.length < f.size then (f, [])
  else ({ f with unfiltered := [] }, luckyDrain f.pick f.unfiltered)

/-- Dispatch of the virtual Filter::filter call. -/
def Filter.runFilter (f : Filter) : Filter × List Sequence :=
  match f.type with
  | .luckyPacket => LuckyPacket.filter f
  | .medianOffset => MedianOffset.filter f

/-- The per-filter feeding loop of Server::onSequenceComplete
(client/server.cpp:589): insert every pending sequence, draining the filter
into the next stage whenever it becomes full. -/
def Filter.feed (f : Filter) (seqs : List Sequence) : Filter × List Sequence :=
  seqs.foldl
    (fun (acc : Filter × List Sequence) seq =>
      let f1 := acc.1.insert seq
      if f1.full then
        let fo := f1.runFilter
        (fo.1, acc.2 ++ fo.2)
      else (f1, acc.2))
    (f, [])

/-- The filter-pipeline loop of Server::onSequenceComplete: the output of
each filter stage is fed into the next. -/
def runFilters : List Filter → List Sequence → List Filter × List Sequence
  | [], seqs => ([], seqs)
  | f :: fs, seqs =>
    let fe := f.feed seqs
    let rec' := runFilters fs fe.2
    (fe.1 :: rec'.1, rec'.2)

/-! ## Calculation stage (calculation/calculation.h, calculation/calculation.cpp,
calculation/passThrough.h, calculation/arithmeticMean.cpp) -/

/-- enum class CalculationType. -/
inductive CalculationType
  | passThrough
  | arithmeticMean
deriving DecidableEq, Repr

/-- class Calculation.  The `drift` double of the source is modelled as an
exact rational; the claims settled here never depend on its rounding. -/
structure Calculation where
  type : CalculationType
  size : Nat
  compensationValue : Int
  sequences : List Sequence
  timestampLevel : PTPTimestampLevel
  valid : Bool
  delay : Int
  offset : Int
  drift : ℚ
  adjustment : Bool
  prevSeqValid : Bool
  prevSeqTimestamp : PTP2Timestamp
  prevSeqOffset : Int
deriving DecidableEq, Repr

/-- Calculation::clearLocked. -/
def Calculation.clearLocked (c : Calculation) : Calculation :=
  { c with prevSeqValid := false, sequences := [] }

/-- The eviction loop of Calculation::insert
(`while (_sequences.size() >= _size) erase(begin())`). -/
def Calculation.evictOldest (size : Nat) : List Sequence → List Sequence
  | [] => []
  | s :: rest =>
    if size ≤ (s :: rest).length then Calculation.evictOldest size rest else s :: rest

/-- Calculation::insert (calculation/calculation.cpp:160). -/
def Calculation.insert (c : Calculation) (seq : Sequence) : Calculation :=
  let c :=
    match c.sequences.getLast? with
    | some last =>
      if last.timestampLevel ≠ seq.timestampLevel then c.clearLocked else c
    | none => c
  let c :=
    match c.sequences.getLast? with
    | some last =>
      { c with prevSeqValid := true, prevSeqTimestamp := last.t1,
               prevSeqOffset := last.offset }
    | none => c
  { c with sequences := Calculation.evictOldest c.size c.sequences ++ [seq],
           timestampLevel := seq.timestampLevel }

/-- Calculation::reset (calculation/calculation.cpp:234). -/
def Calculation.reset (c : Calculation) : Calculation :=
  { c.clearLocked with timestampLevel := PTPTimestampLevel.invalid,
                       valid := false, delay := 0, offset := 0, drift := 0,
                       adjustment := false }

/-- Calculation::remove (calculation/calculation.cpp:198): drop the oldest
accepted sequence; a window that becomes empty resets the whole state. -/
def Calculation.remove (c : Calculation) : Calculation :=
  let c := { c with prevSeqValid := false, sequences := c.sequences.tail }
  if c.sequences.isEmpty then c.reset else c

/-- Calculation::fullyLoaded. -/
def Calculation.fullyLoaded (c : Calculation) : Bool :=
  c.size ≤ c.sequences.length

/-- The Calculation::offset getter subtracts the configured compensation. -/
def Calculation.offsetValue (c : Calculation) : Int := c.offset - c.compensationValue

/-- Calculation::hasAdjustment. -/
def Calculation.hasAdjustment (c : Calculation) : Bool := c.valid && c.adjustment

/-- The drift sum of ArithmeticMean::calculate: for every consecutive pair,
`(offset_i − offset_{i−1}) / (t1_i − t1_{i−1})` (a double in the source). -/
def driftPairSum : List Sequence → ℚ
  | a :: b :: rest =>
    ((b.offset - a.offset : Int) : ℚ) / ((b.t1.sub a.t1 : Int) : ℚ) +
      driftPairSum (b :: rest)
  | _ => 0

/-- ArithmeticMean::calculate (calculation/arithmeticMean.cpp:34). -/
def ArithmeticMean.calculate (c : Calculation) : Calculation :=
  if c.sequences.length < 2 then c
  else
    let n : Int := c.sequences.length
    { c with
      delay := (c.sequences.foldl (fun (a : Int) (s : Sequence) => a + s.meanPathDelay) 0).tdiv n
      offset := (c.sequences.foldl (fun (a : Int) (s : Sequence) => a + s.offset) 0).tdiv n
      drift := driftPairSum c.sequences / ((n - 1 : Int) : ℚ)
      valid := true
      adjustment := c.size ≤ c.sequences.length }

/-- PassThrough::calculate (calculation/passThrough.h:59). -/
def PassThrough.calculate (c : Calculation) : Calculation :=
  let valid := 1 ≤ c.sequences.length
  if h : c.sequences ≠ [] then
    let last := c.sequences.getLast h
    if c.prevSeqValid then
      { c with valid := valid, delay := last.meanPathDelay, offset := last.offset,
               drift := ((last.offset - c.prevSeqOffset : Int) : ℚ) /
                        ((last.t1.sub c.prevSeqTimestamp : Int) : ℚ),
               adjustment := true }
    else
      { c with valid := valid, delay := last.meanPathDelay, offset := last.offset,
               drift := 0, adjustment := false }
  else { c with valid := valid }

/-- Dispatch of the virtual Calculation::calculate call. -/
def Calculation.calculate (c : Calculation) : Calculation :=
  match c.type with
  | .passThrough => PassThrough.calculate c
  | .arithmeticMean => ArithmeticMean.calculate c

/-! ## Wire-message fragments (common/defines.h) -/

/-- struct PTP2Flags: the named header flag bits (the reserved bits are
identically zero throughout the embedded fragment). -/
structure PTP2Flags where
  alternateTimeTransmitter : Bool
  twoStep : Bool
  unicast : Bool
  profileSpecific1 : Bool
  profileSpecific2 : Bool
  security : Bool
  leapIndicator61 : Bool
  leapIndicator59 : Bool
  utcReasonable : Bool
  timescale : Bool
  timeTraceable : Bool
  frequencyTraceable : Bool
deriving DecidableEq, Repr

/-- PTP2Flags::PTP2Flags(bool ts): zero everything, then set twoStep and
unicast. -/
def PTP2Flags.make (ts : Bool) : PTP2Flags :=
  { alternateTimeTransmitter := false, twoStep := ts, unicast := true,
    profileSpecific1 := false, profileSpecific2 := false, security := false,
    leapIndicator61 := false, leapIndicator59 := false,
    utcReasonable := false, timescale := false,
    timeTraceable := false, frequencyTraceable := false }

/-- struct PTP2Message (host byte order, after/before reorder). -/
structure PTP2Message where
  msgType : Nat
  sdoIDMajor : Nat
  version : Nat
  totalLen : Nat
  domain : Nat
  sdoIDMinor : Nat
  flags : PTP2Flags
  correction : PTP2TimeInterval
  msgTypeSpecific : Nat
  clockID : Nat
  portID : Nat
  seqID : Nat
  msgCtrl : Nat
  logMsgPeriod : Int
  timestamp : PTP2Timestamp
deriving DecidableEq, Repr

/-- PTPMessageType::sync as stored in the 4-bit msgType field. -/
def syncMsgType : Nat := 0

/-- PTPMessageType::followUp as stored in the 4-bit msgType field. -/
def followUpMsgType : Nat := 8

/-- PTP2Message::init (common/defines.h:539): fixed version 2.1, domain 0,
sdo id 0, control field from the message type, and log message period
0x7f. -/
def PTP2Message.init (msgType : Nat) (length : Nat) (twoStep : Bool) : PTP2Message :=
  { msgType := msgType
    sdoIDMajor := 0
    version := 0x12
    totalLen := length
    domain := 0
    sdoIDMinor := 0
    flags := PTP2Flags.make twoStep
    correction := ⟨0⟩
    msgTypeSpecific := 0
    clockID := 0
    portID := 0
    seqID := 0
    msgCtrl := if msgType = syncMsgType then 0 else if msgType = followUpMsgType then 2 else 5
    logMsgPeriod := 0x7f
    timestamp := ⟨0, 0⟩ }

/-- struct FlashPTPRespTLV as restored from a received Sync Response
(rxRestore): `valid` is false when the TLV is absent or truncated. -/
structure FlashPTPRespTLV where
  valid : Bool
  error : Nat
  reqIngressTimestamp : PTP2Timestamp
  reqCorrectionField : PTP2TimeInterval
  utcOffset : Int
  serverStateDS : Option FlashPTPServerStateDS
deriving DecidableEq, Repr

/-- Sequence::merge (client/sequence.h:101): fold a received Sync or
FollowUp Response (and its TLV) into the stored sequence. -/
def Sequence.merge (s : Sequence) (msg : PTP2Message) (tlv : FlashPTPRespTLV)
    (timestampLevel : PTPTimestampLevel) (timestamp : Option PTP2Timestamp) : Sequence :=
  let s1 : Option Sequence :=
    if msg.msgType = syncMsgType then
      match timestamp with
      | some ts =>
        if timestampLevel ≠ PTPTimestampLevel.invalid then
          let sa := if msg.flags.twoStep = false then { s with t3 := msg.timestamp } else s
          some { sa with timestampLevel := timestampLevel, t4 := ts,
                         syncCorrection := msg.correction }
        else none
      | none => none
    else if msg.msgType = followUpMsgType then
      some { s with t3 := msg.timestamp, followUpCorrection := msg.correction }
    else none
  match s1 with
  | none => s
  | some s2 =>
    let s3 :=
      if tlv.valid then
        let sb := { s2 with error := tlv.error, t2 := tlv.reqIngressTimestamp,
                            t2Correction := tlv.reqCorrectionField }
        let sb :=
          if msg.flags.utcReasonable then
            { sb with utcCorrection := tlv.utcOffset * 1000000000 }
          else sb
        match tlv.serverStateDS with
        | some ds => { sb with serverStateDSValid := true, serverStateDS := ds }
        | none => sb
      else s2
    if s3.complete then
      { s3 with t4Correction := s3.syncCorrection.addScaled s3.followUpCorrection }
    else s3

/-! ## Client-side server (client/server.h, client/server.cpp) -/

/-- enum class ServerState (client/server.h:112). -/
inductive ServerState
  | initializing
  | unreachable
  | collecting
  | ready
  | falseticker
  | candidate
  | selected
deriving DecidableEq, Repr

/-- Numeric value of the ServerState enumerators (the source compares
states with the relational operators). -/
def ServerState.toNat : ServerState → Nat
  | .initializing => 0
  | .unreachable => 1
  | .collecting => 2
  | .ready => 3
  | .falseticker => 4
  | .candidate => 5
  | .selected => 6

/-- The mutable per-server state of class Server guarded by its lock:
state, 16-bit reach shift register, server-state dataset, filter stages,
calculation stage, in-flight request sequences, clock binding and the
offset-history ring buffer.  The derived floating-point `_stdDev`
statistic (calcStdDev) is outside the model; no claim refers to it. -/
structure ServerS where
  state : ServerState
  reach : Nat
  serverStateDSValid : Bool
  serverStateDS : FlashPTPServerStateDS
  filters : List Filter
  calculation : Calculation
  sequences : List Sequence
  clockName : String
  clockID : Int
  stdDevHistory : List Int
  stdDevIndex : Nat
deriving DecidableEq, Repr

/-- FLASH_PTP_CLIENT_MODE_SERVER_OFFSET_HISTORY_SIZE. -/
def offsetHistorySize : Nat := 16

/-- Advance the offset-history ring buffer by one entry. -/
def ServerS.pushHistory (st : ServerS) (v : Int) : ServerS :=
  { st with stdDevHistory := st.stdDevHistory.set st.stdDevIndex v,
            stdDevIndex :=
              if st.stdDevIndex + 1 = offsetHistorySize then 0 else st.stdDevIndex + 1 }

/-- Server::onSequenceComplete (client/server.cpp:573): shift a 1 into
reach, take over a requested server-state dataset, run the finished
sequence through the filter pipeline and the calculation, and raise the
server state to collecting/ready. -/
def ServerS.onSequenceComplete (st : ServerS) (seq : Sequence) : ServerS :=
  let st := { st with reach := ((st.reach <<< 1) % 65536) ||| 1 }
  let st :=
    if seq.serverStateDSRequested then
      if seq.serverStateDSValid then
        { st with serverStateDSValid := true, serverStateDS := seq.serverStateDS }
      else { st with serverStateDSValid := false }
    else st
  let fr := runFilters st.filters [seq]
  let st := { st with filters := fr.1 }
  if fr.2.isEmpty then st
  else
    let st := fr.2.foldl
      (fun (s : ServerS) (q : Sequence) =>
        let s := s.pushHistory q.offset
        { s with calculation := s.calculation.insert q }) st
    let st := { st with calculation := st.calculation.calculate }
    if st.calculation.fullyLoaded then
      if st.state.toNat < ServerState.ready.toNat then { st with state := .ready } else st
    else
      if st.state.toNat < ServerState.collecting.toNat then { st with state := .collecting }
      else st

/-- Server::onSequenceTimeout (client/server.cpp:628): shift a 0 into
reach; when reach hits zero the server becomes unreachable and the
calculation is reset; clear the filters after four consecutive timeouts,
otherwise remove the oldest calculation entry. -/
def ServerS.onSequenceTimeout (st : ServerS) (seq : Sequence) : ServerS :=
  let st := { st with reach := ((st.reach <<< 1) % 65536) &&& 0xfffe }
  let st :=
    if seq.serverStateDSRequested then { st with serverStateDSValid := false } else st
  let st :=
    if st.reach = 0 then
      { st with state := .unreachable, calculation := st.calculation.reset,
                serverStateDSValid := false }
    else st
  let anyNonempty := st.filters.any (fun f => !f.isEmpty)
  let fr :=
    if st.filters.length ≠ 0 ∧ st.reach &&& 0xf = 0 then
      (st.filters.map (fun f => if f.isEmpty then f else f.clear), !anyNonempty)
    else (st.filters, true)
  let st := { st with filters := fr.1 }
  let st := if fr.2 then { st with calculation := st.calculation.remove } else st
  st.pushHistory int64Max

/-- Server::resetState (client/server.cpp:723). -/
def ServerS.resetState (st : ServerS) : ServerS :=
  { st with calculation := st.calculation.reset,
            state := .initializing, reach := 0,
            serverStateDSValid := false,
            clockName := "", clockID := -1,
            sequences := [],
            stdDevHistory := List.replicate offsetHistorySize int64Max,
            stdDevIndex := 0 }

/-- The sequence-store scan of Server::processMessage
(client/server.cpp:500): find the first stored sequence with the message's
sequence id; a timed-out match is removed with timeout processing; a
duplicate Sync (T4 already set) or FollowUp (T3 already set) breaks the
loop without touching anything; otherwise the message is merged and a
completed sequence is removed, finished and handed to
onSequenceComplete (after which the index-based loop skips one entry). -/
def scanSeqs (msg : PTP2Message) (tlv : FlashPTPRespTLV) (timestampLevel : PTPTimestampLevel)
    (timestamp : Option PTP2Timestamp) : ServerS → List Sequence → ServerS × List Sequence
  | st, [] => (st, [])
  | st, seq :: rest =>
    if seq.sequenceID ≠ msg.seqID then
      let r := scanSeqs msg tlv timestampLevel timestamp st rest
      (r.1, seq :: r.2)
    else if seq.timedOut then
      (st.onSequenceTimeout seq, rest)
    else if (msg.msgType = syncMsgType ∧ seq.hasT4 = false) ∨
            (msg.msgType = followUpMsgType ∧ seq.hasT3 = false) then
      let seq' := seq.merge msg tlv timestampLevel timestamp
      if seq'.complete then
        let st' := st.onSequenceComplete seq'.finish
        match rest with
        | [] => (st', [])
        | x :: rest2 =>
          let r := scanSeqs msg tlv timestampLevel timestamp st' rest2
          (r.1, x :: r.2)
      else (st, seq' :: rest)
    else (st, seq :: rest)

/-- Server::processMessage (client/server.cpp:500). -/
def ServerS.processMessage (st : ServerS) (msg : PTP2Message) (tlv : FlashPTPRespTLV)
    (timestampLevel : PTPTimestampLevel) (timestamp : Option PTP2Timestamp) : ServerS :=
  let r := scanSeqs msg tlv timestampLevel timestamp st st.sequences
  { r.1 with sequences := r.2 }

/-- The once-per-second sweep of Server::checkSequenceTimeouts
(client/server.cpp:747). -/
def sweepSeqs : ServerS → List Sequence → ServerS × List Sequence
  | st, [] => (st, [])
  | st, seq :: rest =>
    if seq.timedOut then sweepSeqs (st.onSequenceTimeout seq) rest
    else
      let r := sweepSeqs st rest
      (r.1, seq :: r.2)

/-- Server::checkSequenceTimeouts. -/
def ServerS.checkSequenceTimeouts (st : ServerS) : ServerS :=
  let r := sweepSeqs st st.sequences
  { r.1 with sequences := r.2 }

/-- Server::addSequence. -/
def ServerS.addSequence (st : ServerS) (seq : Sequence) : ServerS :=
  { st with sequences := st.sequences ++ [seq] }

/-- Server::setState. -/
def ServerS.setState (st : ServerS) (s : ServerState) : ServerS :=
  { st with state := s }

/-- Server::setClock. -/
def ServerS.setClock (st : ServerS) (name : String) (id : Int) : ServerS :=
  { st with clockName := name, clockID := id }

/-- One transition of a client-side server's lifetime: the worker resets
its state on start and stop (resetState), records sent requests
(addSequence), binds its PHC (setClock), processes received responses
(processMessage), sweeps timeouts once per second
(checkSequenceTimeouts); the selector and client-mode tick mark servers
that are at least Ready with one of ready/falseticker/candidate/selected
(selection/selection.cpp preprocess, detectTruechimers, postprocess and
ClientMode::resetUnusedServersStates, all of which only touch servers
whose state is at least Ready). -/
inductive ServerSStep : ServerS → ServerS → Prop
  | reset (st : ServerS) : ServerSStep st st.resetState
  | addSeq (st : ServerS) (seq : Sequence) : ServerSStep st (st.addSequence seq)
  | setClock (st : ServerS) (name : String) (id : Int) :
      ServerSStep st (st.setClock name id)
  | rx (st : ServerS) (msg : PTP2Message) (tlv : FlashPTPRespTLV)
      (lvl : PTPTimestampLevel) (ts : Option PTP2Timestamp) :
      ServerSStep st (st.processMessage msg tlv lvl ts)
  | sweep (st : ServerS) : ServerSStep st st.checkSequenceTimeouts
  | mark (st : ServerS) (s : ServerState)
      (hguard : ServerState.ready.toNat ≤ st.state.toNat)
      (hs : s = .ready ∨ s = .falseticker ∨ s = .candidate ∨ s = .selected) :
      ServerSStep st (st.setState s)

/-- The states a client-side server can be in during its lifetime: the
worker begins by calling resetState (Server::threadFunc) and then evolves
by ServerSStep transitions. -/
inductive ServerSReachable : ServerS → Prop
  | start (st : ServerS) : ServerSReachable st.resetState
  | step {st st' : ServerS} :
      ServerSReachable st → ServerSStep st st' → ServerSReachable st'

/-! ## Request transmission (client/server.cpp threadFunc) and message
direction classification (server/serverMode.cpp, client/clientMode.cpp) -/

/-- Size in bytes of the packed PTP2Message header. -/
def ptpHdrLen : Nat := 44

/-- Length of the packed response TLV built by FlashPTPRespTLV::txPrepare:
header (14) + error (2) + ingress timestamp (10) + correction (8) +
UTC offset (2), plus the 20-byte server-state dataset when requested. -/
def respTlvLen (flags : Nat) : Nat :=
  14 + 2 + 10 + 8 + 2 + (if flags &&& 1 ≠ 0 then 20 else 0)

/-- The Sync Request header built by Server::threadFunc
(client/server.cpp:814): PTP2Message::init, then the sequence id and the
log message period, which is overwritten with the configured request
interval. -/
def clientBuildSyncRequest (interval : Int) (sequenceID : Nat) (oneStep syncTLV : Bool)
    (tlvLen : Nat) : PTP2Message :=
  let ptp := PTP2Message.init syncMsgType
      (if syncTLV then ptpHdrLen + tlvLen else ptpHdrLen) (!oneStep)
  { ptp with seqID := sequenceID, logMsgPeriod := interval }

/-- The FollowUp Request header built by Server::threadFunc
(client/server.cpp:835). -/
def clientBuildFollowUpRequest (interval : Int) (sequenceID : Nat) (syncTLV : Bool)
    (tlvLen : Nat) (currentLevel : PTPTimestampLevel) : PTP2Message :=
  let ptp := PTP2Message.init followUpMsgType
      (if syncTLV then ptpHdrLen else ptpHdrLen + tlvLen) false
  { ptp with seqID := sequenceID, logMsgPeriod := interval,
             flags := { ptp.flags with timescale := currentLevel = .hardware } }

/-- Direction a received message is routed to. -/
inductive MsgDirection
  | request
  | response
deriving DecidableEq, Repr

/-- The direction decision of ServerMode::onMsgReceived
(server/serverMode.cpp:460): a log message period of 0x7f means the
message belongs to a response sequence; otherwise a valid flashPTP TLV
decides by its subtype, and without one the message is treated as a
request.  `tlv` is the FlashPTPTLVHdr::validate outcome (none when no
valid flashPTP TLV is present, otherwise its isRequest flag). -/
def ServerMode.classifyDirection (logMsgPeriod : Int) (tlv : Option Bool) : MsgDirection :=
  if logMsgPeriod = 0x7f then .response
  else
    match tlv with
    | some isRequest => if isRequest then .request else .response
    | none => .request

/-- The direction decision of ClientMode::onMsgReceived
(client/clientMode.cpp:241): the mirror image of the server-mode one. -/
def ClientMode.classifyDirection (logMsgPeriod : Int) (tlv : Option Bool) : MsgDirection :=
  if logMsgPeriod ≠ 0x7f then .request
  else
    match tlv with
    | some isRequest => if isRequest then .request else .response
    | none => .response

/-! ## Server mode responder (server/request.h, server/serverMode.cpp) -/

/-- Modelled from the spec: the TLV error bit TX_TIMESTAMP_INVALID
("set the error bit TX_TIMESTAMP_INVALID in the FollowUp TLV").  The
macro FLASH_PTP_ERROR_TX_TIMESTAMP_INVALID is used by the sources but its
definition is not among the files under src/; only its being a fixed
nonzero bit distinct from FLASH_PTP_ERROR_OP_MODE_NOT_SUPP (0x0001)
matters here. -/
def FLASH_PTP_ERROR_TX_TIMESTAMP_INVALID : Nat := 2

/-- A server-mode listener as far as processRequest consults it:
its interface name and configured UTC offset (server/listener.h). -/
structure Listener where
  interface : String
  utcOffset : Int
deriving DecidableEq, Repr

/-- class Request (server/request.h), reduced to the fields
ServerMode::processRequest reads from a completely received request. -/
structure Request where
  sequenceID : Nat
  flags : Nat
  syncTLV : Bool
  oneStep : Bool
  timestampLevel : PTPTimestampLevel
  ingressTimestamp : PTP2Timestamp
  correction : PTP2TimeInterval
deriving DecidableEq, Repr

/-- The response TLV under construction (FlashPTPRespTLV on the transmit
side). -/
structure RespTLVTx where
  flags : Nat
  error : Nat
  reqIngressTimestamp : PTP2Timestamp
  reqCorrectionField : PTP2TimeInterval
  utcOffset : Int
  serverStateDS : Option FlashPTPServerStateDS
deriving DecidableEq, Repr

/-- FlashPTPRespTLV::txPrepare: zero-initialized payload; the server-state
dataset slot exists exactly when the request flag bit is set. -/
def RespTLVTx.txPrepare (flags : Nat) : RespTLVTx :=
  { flags := flags, error := 0, reqIngressTimestamp := ⟨0, 0⟩,
    reqCorrectionField := ⟨0⟩, utcOffset := 0,
    serverStateDS := if flags &&& 1 ≠ 0 then some FlashPTPServerStateDS.zero else none }

/-- The UTC-offset determination of ServerMode::processRequest
(server/serverMode.cpp:335,371): INT16_MAX unless hardware timestamps are
used and a listener for the ingress interface is configured. -/
def ServerMode.respUtcOffset (listeners : List Listener) (srcInterface : String)
    (timestampLevel : PTPTimestampLevel) : Int :=
  if timestampLevel = PTPTimestampLevel.hardware then
    match listeners.find? (fun l => l.interface == srcInterface) with
    | some l => l.utcOffset
    | none => int16Max
  else int16Max

/-- What ServerMode::processRequest hands to the network plane. -/
structure ServerModeResult where
  syncMsg : PTP2Message
  syncSent : Bool
  followUp : Option PTP2Message
  tlv : RespTLVTx
deriving DecidableEq, Repr

/-- ServerMode::processRequest (server/serverMode.cpp:327).  The
environment enters through explicit inputs: the interface owning the
request's destination address (none when network::hasAddress fails, in
which case the request is discarded), the interface PTP clock id, the
realtime clock reading used for one-step responses, the send result and
the achieved TX timestamp level and TX timestamp of the Sync response. -/
def ServerMode.processRequest (serverStateDS : FlashPTPServerStateDS)
    (listeners : List Listener) (req : Request)
    (srcInterface : Option String) (ifClockID : Nat)
    (oneStepNow : PTP2Timestamp) (syncSendOk : Bool)
    (achievedLevel : PTPTimestampLevel) (txTimestamp : PTP2Timestamp) :
    Option ServerModeResult :=
  match srcInterface with
  | none => none
  | some iface =>
    let tlv := RespTLVTx.txPrepare req.flags
    let ptp := PTP2Message.init syncMsgType
        (if req.syncTLV then ptpHdrLen + respTlvLen req.flags else ptpHdrLen) (!req.oneStep)
    let ptp := { ptp with seqID := req.sequenceID }
    let timestampLevel := if req.oneStep then PTPTimestampLevel.user else req.timestampLevel
    let ptp := if req.oneStep then { ptp with timestamp := oneStepNow } else ptp
    let tlv := { tlv with reqIngressTimestamp := req.ingressTimestamp,
                          reqCorrectionField := req.correction }
    let utcOffset := ServerMode.respUtcOffset listeners iface timestampLevel
    let pt :=
      if req.syncTLV ∧ utcOffset ≠ int16Max then
        ({ ptp with flags := { ptp.flags with utcReasonable := true, timescale := true } },
         { tlv with utcOffset := utcOffset })
      else (ptp, tlv)
    let ptp := pt.1
    let tlv := pt.2
    let dsOut :=
      if serverStateDS.stepsRemoved = 0 then { serverStateDS with gmClockID := ifClockID }
      else serverStateDS
    let tlv :=
      if req.flags &&& 1 ≠ 0 then { tlv with serverStateDS := some dsOut } else tlv
    if syncSendOk = false ∨ req.oneStep then
      some { syncMsg := ptp, syncSent := syncSendOk, followUp := none, tlv := tlv }
    else
      let fu := PTP2Message.init followUpMsgType
          (if req.syncTLV then ptpHdrLen else ptpHdrLen + respTlvLen req.flags) false
      let fu := { fu with seqID := req.sequenceID, timestamp := txTimestamp }
      let ft :=
        if req.syncTLV = false then
          if utcOffset ≠ int16Max ∨ 3000 < req.sequenceID then
            if achievedLevel ≠ req.timestampLevel ∨ 3000 < req.sequenceID then
              (fu, { tlv with error := tlv.error ||| FLASH_PTP_ERROR_TX_TIMESTAMP_INVALID })
            else
              ({ fu with flags := { fu.flags with utcReasonable := true, timescale := true } },
               { tlv with utcOffset := utcOffset })
          else (fu, tlv)
        else (fu, tlv)
      some { syncMsg := ptp, syncSent := true, followUp := some ft.1, tlv := ft.2 }

/-! ## PID controller (adjustment/adjustment.cpp, adjustment/pidController.cpp) -/

/-- The configured ratios of class PIDController (doubles in the source,
modelled as exact rationals) and the step threshold (uint64, ns). -/
structure PIDConfig where
  kp : ℚ
  ki : ℚ
  kd : ℚ
  stepThreshold : Nat
deriving DecidableEq, Repr

/-- The mutable controller members of class PIDController. -/
structure PIDState where
  freqAddend : ℚ
  integral : ℚ
  proportional : ℚ
  differential : ℚ
  timeAddend : Int
deriving DecidableEq, Repr

/-- A selected client-side server as the adjustment code reads it:
Calculation::hasAdjustment, Server::clockID, Calculation::offset (the
compensated getter) and Calculation::drift. -/
structure SelectedServer where
  hasAdjustment : Bool
  clockID : Int
  offset : Int
  drift : ℚ
deriving DecidableEq, Repr

/-- One clock_adjtime call issued by PIDController::adjust: a time step
(ADJ_SETOFFSET, signed nanoseconds) or a frequency update (ADJ_FREQUENCY,
the kernel scaled-ppm value). -/
inductive AdjCall
  | setOffset (t : Int)
  | setFreq (f : Int)
deriving DecidableEq, Repr

/-- Result of one PIDController::adjust tick. -/
structure AdjustResult where
  state : PIDState
  freqAggregate : ℚ
  calls : List AdjCall
deriving DecidableEq, Repr

/-- Adjustment::initAdj (adjustment/adjustment.cpp:160). -/
def Adjustment.initAdj (clockID : Int) (servers : List SelectedServer) : Bool :=
  if clockID = -1 then false
  else if servers.isEmpty then false
  else servers.all (fun s => s.hasAdjustment && (s.clockID == clockID))

/-- The int64 offset accumulation of PIDController::adjust
(`_timeAddend += offset; _timeAddend /= size`). -/
def sumOffsets64 (servers : List SelectedServer) : Int :=
  servers.foldl (fun a s => wrap64 (a + s.offset)) 0

/-- The mean offset PIDController::adjust computes (int64 truncating
division). -/
def meanOffset64 (servers : List SelectedServer) : Int :=
  (sumOffsets64 servers).tdiv servers.length

/-- The mean drift across the selected servers
(`_freqAddend += drift; _freqAddend /= size`). -/
def meanDrift (servers : List SelectedServer) : ℚ :=
  servers.foldl (fun (a : ℚ) s => a + s.drift) 0 / (servers.length : ℚ)

/-- The `(long)(_freqAggregate * 65536000000.0)` cast: truncation of the
rational towards zero. -/
def ratTrunc (q : ℚ) : Int := q.num.tdiv (q.den : Int)

/-- FLASH_PTP_ADJUSTMENT_FREQ_LIMIT. -/
def freqLimit : Int := 32768000

/-- The frequency saturation of PIDController::adjust
(adjustment/pidController.cpp:220). -/
def saturateFreq (q : ℚ) : Int :=
  let f := ratTrunc (q * 65536000000)
  if freqLimit < |f| then (if f < 0 then -freqLimit else freqLimit) else f

/-- PIDController::adjust (adjustment/pidController.cpp:153).
`kernelFreq` is the tx.freq value read back from the kernel (none models
a failing clock_adjtime read, which aborts the tick); the clock-adjust
syscalls themselves are taken as succeeding and are returned as the
`calls` list in issue order. -/
def PIDController.adjust (cfg : PIDConfig) (clockID : Int) (st : PIDState)
    (kernelFreq : Option Int) (servers : List SelectedServer) : Option AdjustResult :=
  if Adjustment.initAdj clockID servers = false then none
  else
    match kernelFreq with
    | none => none
    | some fr =>
      let freqAggregate : ℚ := (fr : ℚ) / 65536000000
      let integral := st.integral + st.freqAddend * cfg.ki
      let freqAggregate := freqAggregate - (st.freqAddend - st.freqAddend * cfg.ki)
      let timeAddend := meanOffset64 servers
      if cfg.stepThreshold ≠ 0 ∧ (cfg.stepThreshold : Int) ≤ |timeAddend| then
        let freqAggregate := freqAggregate + meanDrift servers
        let st' : PIDState :=
          { st with freqAddend := 0, integral := integral, timeAddend := timeAddend }
        some { state := st', freqAggregate := freqAggregate,
               calls := (if timeAddend ≠ 0 then [AdjCall.setOffset timeAddend] else []) ++
                        [AdjCall.setFreq (saturateFreq freqAggregate)] }
      else
        let proportional := cfg.kp * ((timeAddend : ℚ) / 1000000000)
        let differential : ℚ := if cfg.kd ≠ 0 then meanDrift servers * cfg.kd else 0
        let freqAddend := proportional + differential
        let freqAggregate := freqAggregate + freqAddend
        let st' : PIDState :=
          { freqAddend := freqAddend, integral := integral,
            proportional := proportional, differential := differential, timeAddend := 0 }
        some { state := st', freqAggregate := freqAggregate,
               calls := [AdjCall.setFreq (saturateFreq freqAggregate)] }

/-! ## Auxiliary definitions for the statements below -/

/-- Iterated sequence timeouts on one server (Server::onSequenceTimeout
applied n times). -/
def timeoutIter (st : ServerS) (seq : Sequence) : Nat → ServerS
  | 0 => st
  | n + 1 => (timeoutIter st seq n).onSequenceTimeout seq

/-- The median-extraction index as §4.4 of the spec words it: the middle
element of the current (sorted) buffer, the upper median when the current
count is even. -/
def medianSpecIndex (n : Nat) : Nat := if n % 2 = 0 then n / 2 else (n - 1) / 2

/-- The drain loop as the spec words it: repeatedly extract the middle
element, `pick` times, stopping early as soon as fewer than 3 unfiltered
sequences remain. -/
def medianSpecDrain : Nat → List Sequence → List Sequence
  | 0, _ => []
  | k + 1, l =>
    if 3 ≤ l.length then
      match l[medianSpecIndex l.length]? with
      | some x => x :: medianSpecDrain k (l.eraseIdx (medianSpecIndex l.length))
      | none => []
    else []

/-! ## Concrete sample inputs used by witnesses and counterexamples -/

/-- An empty arithmetic-mean calculation with the default window size. -/
def calcSampleAM : Calculation :=
  { type := .arithmeticMean, size := 8, compensationValue := 0, sequences := [],
    timestampLevel := .invalid, valid := false, delay := 0, offset := 0, drift := 0,
    adjustment := false, prevSeqValid := false, prevSeqTimestamp := ⟨0, 0⟩,
    prevSeqOffset := 0 }

/-- The basic two-step exchange of spec §8 scenario 1:
T1 = 100, T2 = 110, T3 = 115, T4 = 125, zero corrections. -/
def seqSample : Sequence :=
  { sequenceID := 1, msTimeout := 2000, timestampLevel := .user,
    t1 := ⟨0, 100⟩, t2 := ⟨0, 110⟩, t3 := ⟨0, 115⟩, t4 := ⟨0, 125⟩,
    t2Correction := ⟨0⟩, syncCorrection := ⟨0⟩, followUpCorrection := ⟨0⟩,
    t4Correction := ⟨0⟩, error := 0, utcCorrection := 0,
    serverStateDSRequested := false, serverStateDSValid := false,
    serverStateDS := FlashPTPServerStateDS.zero,
    c2sDelay := 0, s2cDelay := 0, offset := 0, timedOut := false }

/-- A fully gathered but timed-out sequence with id 7. -/
def seqTimedOut : Sequence := { seqSample with sequenceID := 7, timedOut := true }

/-- A stored (not timed out) sequence with id 7. -/
def seqStored7 : Sequence := { seqSample with sequenceID := 7 }

/-- A server with full reach and an empty pipeline. -/
def serverSampleReach : ServerS :=
  { state := .ready, reach := 0xffff, serverStateDSValid := false,
    serverStateDS := FlashPTPServerStateDS.zero, filters := [],
    calculation := calcSampleAM, sequences := [], clockName := "", clockID := -1,
    stdDevHistory := List.replicate offsetHistorySize int64Max, stdDevIndex := 0 }

/-- A server holding one timed-out stored sequence (id 7), reach 1. -/
def serverSampleDup : ServerS :=
  { serverSampleReach with reach := 1, sequences := [seqTimedOut] }

/-- A server holding one live stored sequence (id 7) that already has T4. -/
def serverSampleLive : ServerS :=
  { serverSampleReach with reach := 1, sequences := [seqStored7] }

/-- A received duplicate Sync Response header with sequence id 7. -/
def msgSyncDup : PTP2Message :=
  { PTP2Message.init syncMsgType ptpHdrLen true with seqID := 7 }

/-- An absent/invalid response TLV. -/
def tlvNone : FlashPTPRespTLV :=
  { valid := false, error := 0, reqIngressTimestamp := ⟨0, 0⟩,
    reqCorrectionField := ⟨0⟩, utcOffset := 0, serverStateDS := none }

/-- A sequence with a given id and offset (for the median filter). -/
def seqOff (id : Nat) (off : Int) : Sequence :=
  { seqSample with sequenceID := id, offset := off }

/-- A full size-3 filter used by the window-bound witness. -/
def smallFilterSample : Filter :=
  { type := .medianOffset, size := 3, pick := 1,
    unfiltered := [seqOff 1 1, seqOff 2 2, seqOff 3 3] }

/-- A full median-offset filter of size 4 with pick 2. -/
def medianFilterSample : Filter :=
  { type := .medianOffset, size := 4, pick := 2,
    unfiltered := [seqOff 1 30, seqOff 2 10, seqOff 3 20, seqOff 4 40] }

/-- The all-zero PID controller state. -/
def pidZero : PIDState :=
  { freqAddend := 0, integral := 0, proportional := 0, differential := 0, timeAddend := 0 }

/-- Default PID ratios with a step threshold of 0. -/
def cfgNoThreshold : PIDConfig := { kp := 1/5, ki := 1/20, kd := 0, stepThreshold := 0 }

/-- Default PID ratios with the default 1 ms step threshold. -/
def cfgStep : PIDConfig := { kp := 1/5, ki := 1/20, kd := 0, stepThreshold := 1000000 }

/-- One selected server with a 5 ns offset and zero drift. -/
def srvSlew : SelectedServer := { hasAdjustment := true, clockID := 1, offset := 5, drift := 0 }

/-- One selected server with a 2 ms offset and zero drift (spec §8
scenario 5). -/
def srvStep : SelectedServer :=
  { hasAdjustment := true, clockID := 1, offset := 2000000, drift := 0 }

/-- A two-step request with the TLV riding on the FollowUp whose requested
(socket) TX timestamp level will not be achieved. -/
def reqNoUtc : Request :=
  { sequenceID := 1, flags := 0, syncTLV := false, oneStep := false,
    timestampLevel := .socket, ingressTimestamp := ⟨0, 50⟩, correction := ⟨0⟩ }

/-- The same request asking for hardware timestamps. -/
def reqHw : Request := { reqNoUtc with sequenceID := 2, timestampLevel := .hardware }

/-- A listener on eth0 with UTC offset 37. -/
def listenerEth0 : Listener := { interface := "eth0", utcOffset := 37 }

/-! ## Helper lemmas -/

theorem even_lor_one (x : Nat) (h : x % 2 = 0) : x ||| 1 = x + 1 := by
  apply Nat.eq_of_testBit_eq
  intro i
  cases i with
  | zero =>
    rw [Nat.testBit_lor]
    simp [Nat.testBit_zero]
    omega
  | succ n =>
    rw [Nat.testBit_lor, Nat.testBit_succ, Nat.testBit_succ, Nat.testBit_succ]
    have h2 : (x + 1) / 2 = x / 2 := by omega
    simp [h2]

theorem even_and_fffe (x : Nat) (h2 : x % 2 = 0) (hlt : x < 65536) : x &&& 0xfffe = x := by
  apply Nat.eq_of_testBit_eq
  intro i
  rw [Nat.testBit_and]
  rcases Nat.lt_or_ge i 16 with hi | hi
  · have hmask : ∀ j, j < 16 → ((0xfffe : Nat).testBit j) = decide (j ≠ 0) := by decide
    rw [hmask i hi]
    rcases Nat.eq_zero_or_pos i with h0 | hpos
    · subst h0
      simp [Nat.testBit_zero]
      omega
    · have hne : i ≠ 0 := by omega
      simp [hne]
  · have h16 : (65536 : Nat) ≤ 2 ^ i := by
      calc (65536 : Nat) = 2 ^ 16 := by norm_num
        _ ≤ 2 ^ i := Nat.pow_le_pow_right (by norm_num) hi
    have hx : x < 2 ^ i := lt_of_lt_of_le hlt h16
    simp [Nat.testBit_lt_two_pow hx]

theorem nanoseconds_zero : PTP2TimeInterval.nanoseconds ⟨0⟩ = 0 := by decide

/-! ## Claim theorems -/

/-- Claim C1: for every client Sequence, finish computes
c2sDelay = T2 − T1 − t2Corr − utcCorr, s2cDelay = T4 − T3 − t4Corr + utcCorr,
offset = ((T2+T3) − (T1+T4) − t2Corr + t4Corr) / 2 and
meanPathDelay = (c2sDelay + s2cDelay) / 2; with all corrections zero,
offset = ((T2+T3) − (T1+T4)) / 2 and meanPathDelay = ((T2−T1) + (T4−T3)) / 2. -/
theorem sequence_finish_computes_delays_and_offset :
    ∀ s : Sequence,
      (s.finish).c2sDelay = s.t2.sub s.t1 - s.t2Correction.nanoseconds - s.utcCorrection ∧
      (s.finish).s2cDelay = s.t4.sub s.t3 - s.t4Correction.nanoseconds + s.utcCorrection ∧
      (s.finish).offset =
        (s.t2.add s.t3 - s.t1.add s.t4 - s.t2Correction.nanoseconds +
          s.t4Correction.nanoseconds).tdiv 2 ∧
      (s.finish).meanPathDelay = ((s.finish).c2sDelay + (s.finish).s2cDelay).tdiv 2 ∧
      (s.t2Correction = ⟨0⟩ → s.t4Correction = ⟨0⟩ → s.utcCorrection = 0 →
        (s.finish).offset = (s.t2.add s.t3 - s.t1.add s.t4).tdiv 2 ∧
        (s.finish).meanPathDelay = (s.t2.sub s.t1 + (s.t4.sub s.t3)).tdiv 2) := by
  intro s
  have hc2s : (s.finish).c2sDelay =
      s.t2.sub s.t1 - s.t2Correction.nanoseconds - s.utcCorrection := rfl
  have hs2c : (s.finish).s2cDelay =
      s.t4.sub s.t3 - s.t4Correction.nanoseconds + s.utcCorrection := rfl
  have hoff : (s.finish).offset =
      (s.t2.add s.t3 - s.t1.add s.t4 - s.t2Correction.nanoseconds +
        s.t4Correction.nanoseconds).tdiv 2 := by
    show ((s.t2.add s.t3 - s.t2Correction.nanoseconds - s.utcCorrection) -
          (s.t1.add s.t4 - s.t4Correction.nanoseconds - s.utcCorrection)).tdiv 2 = _
    apply congrArg (fun z : Int => z.tdiv 2)
    ring
  have hmpd : (s.finish).meanPathDelay =
      ((s.finish).c2sDelay + (s.finish).s2cDelay).tdiv 2 := rfl
  refine ⟨hc2s, hs2c, hoff, hmpd, ?_⟩
  intro h2 h4 hu
  constructor
  · rw [hoff, h2, h4, nanoseconds_zero]
    apply congrArg (fun z : Int => z.tdiv 2)
    ring
  · rw [hmpd, hc2s, hs2c, h2, h4, hu, nanoseconds_zero]
    apply congrArg (fun z : Int => z.tdiv 2)
    ring

/-- Witness for C1 at spec §8 scenario 1 (T1 = 100, T2 = 110, T3 = 115,
T4 = 125, zero corrections): offset 0 and mean path delay 10. -/
theorem sequence_finish_witness :
    seqSample.t2Correction = ⟨0⟩ ∧ seqSample.t4Correction = ⟨0⟩ ∧
    seqSample.utcCorrection = 0 ∧
    (seqSample.finish).offset = 0 ∧ (seqSample.finish).meanPathDelay = 10 := by
  have h := (sequence_finish_computes_delays_and_offset seqSample).2.2.2.2 rfl rfl rfl
  refine ⟨rfl, rfl, rfl, ?_, ?_⟩
  · rw [h.1]; decide
  · rw [h.2]; decide

set_option maxRecDepth 4000 in
/-- Claim C5 (code bug): converting the scaled-nanoseconds correction
−65536 (exactly −1 ns) to integer nanoseconds yields 2^48 − 1 instead of
the sign-extended value −1: the source masks with 0xffffffffffff before
testing the sign, so its sign-extension branch can never execute. -/
theorem nanoseconds_negative_correction_not_sign_extended :
    PTP2TimeInterval.nanoseconds ⟨-65536⟩ = 281474976710655 ∧
    (-65536 : Int).fdiv 65536 = -1 ∧
    PTP2TimeInterval.nanoseconds ⟨-65536⟩ ≠ -1 := by decide

/-! Eviction lemmas for the filter and calculation insert loops. -/

theorem filterEvict_length (size : Nat) :
    ∀ l : List Sequence, (Filter.evictOldest size l).length ≤ size - 1 ∨
      (Filter.evictOldest size l).length + 1 ≤ size := by
  intro l
  induction l with
  | nil => left; simp [Filter.evictOldest]
  | cons a rest ih =>
    simp only [Filter.evictOldest]
    split
    · exact ih
    · next hc => right; simp only [List.length_cons] at hc ⊢; omega

theorem filterEvict_le (size : Nat) (h : 1 ≤ size) (l : List Sequence) :
    (Filter.evictOldest size l).length + 1 ≤ size := by
  rcases filterEvict_length size l with hle | hle
  · omega
  · exact hle

theorem filterEvict_eq_tail (size : Nat) (h : 1 ≤ size) :
    ∀ l : List Sequence, l.length = size → Filter.evictOldest size l = l.tail := by
  intro l hl
  cases l with
  | nil => simp at hl; omega
  | cons a rest =>
    simp only [Filter.evictOldest]
    rw [if_pos (by omega : size ≤ (a :: rest).length)]
    cases rest with
    | nil => rfl
    | cons b r2 =>
      simp only [Filter.evictOldest]
      rw [if_neg (by simp only [List.length_cons] at hl ⊢; omega)]
      rfl

theorem calcEvict_length (size : Nat) :
    ∀ l : List Sequence, (Calculation.evictOldest size l).length ≤ size - 1 ∨
      (Calculation.evictOldest size l).length + 1 ≤ size := by
  intro l
  induction l with
  | nil => left; simp [Calculation.evictOldest]
  | cons a rest ih =>
    simp only [Calculation.evictOldest]
    split
    · exact ih
    · next hc => right; simp only [List.length_cons] at hc ⊢; omega

theorem calcEvict_le (size : Nat) (h : 1 ≤ size) (l : List Sequence) :
    (Calculation.evictOldest size l).length + 1 ≤ size := by
  rcases calcEvict_length size l with hle | hle
  · omega
  · exact hle

theorem calcEvict_eq_tail (size : Nat) (h : 1 ≤ size) :
    ∀ l : List Sequence, l.length = size → Calculation.evictOldest size l = l.tail := by
  intro l hl
  cases l with
  | nil => simp at hl; omega
  | cons a rest =>
    simp only [Calculation.evictOldest]
    rw [if_pos (by omega : size ≤ (a :: rest).length)]
    cases rest with
    | nil => rfl
    | cons b r2 =>
      simp only [Calculation.evictOldest]
      rw [if_neg (by simp only [List.length_cons] at hl ⊢; omega)]
      rfl

/-- Claim C10: a filter's unfiltered buffer and a calculation's window
never exceed their configured size (≥ 1 after config validation): insert
into a buffer that (after the level-clearing rule) already holds `size`
sequences first evicts the oldest one, and always leaves at most `size`. -/
theorem insert_preserves_window_bound :
    (∀ (f : Filter) (seq : Sequence), 1 ≤ f.size →
       (f.insert seq).unfiltered.length ≤ f.size ∧
       (∀ last, f.unfiltered.getLast? = some last →
         last.timestampLevel = seq.timestampLevel →
         f.unfiltered.length = f.size →
         (f.insert seq).unfiltered = f.unfiltered.tail ++ [seq])) ∧
    (∀ (c : Calculation) (seq : Sequence), 1 ≤ c.size →
       (c.insert seq).sequences.length ≤ c.size ∧
       (∀ last, c.sequences.getLast? = some last →
         last.timestampLevel = seq.timestampLevel →
         c.sequences.length = c.size →
         (c.insert seq).sequences = c.sequences.tail ++ [seq])) := by
  constructor
  · intro f seq hsz
    constructor
    · simp only [Filter.insert]
      cases hgl : f.unfiltered.getLast? with
      | none =>
        simp only [hgl, List.length_append, List.length_cons, List.length_nil]
        have := filterEvict_le f.size hsz f.unfiltered
        omega
      | some last =>
        simp only [hgl]
        split
        · simp only [List.length_append, List.length_cons, List.length_nil]
          have := filterEvict_le f.size hsz []
          omega
        · simp only [List.length_append, List.length_cons, List.length_nil]
          have := filterEvict_le f.size hsz f.unfiltered
          omega
    · intro last hgl hlvl hlen
      simp only [Filter.insert, hgl]
      rw [if_neg (by simp [hlvl])]
      rw [filterEvict_eq_tail f.size hsz f.unfiltered hlen]
  · intro c seq hsz
    constructor
    · simp only [Calculation.insert]
      cases hgl : c.sequences.getLast? with
      | none =>
        simp only [hgl, List.length_append, List.length_cons, List.length_nil]
        have := calcEvict_le c.size hsz c.sequences
        omega
      | some last =>
        simp only [hgl]
        by_cases hne : last.timestampLevel ≠ seq.timestampLevel
        · rw [if_pos hne]
          simp only [Calculation.clearLocked, List.getLast?_nil, List.length_append,
            List.length_cons, List.length_nil]
          have := calcEvict_le c.size hsz ([] : List Sequence)
          simp only [List.length_nil] at this
          omega
        · rw [if_neg hne]
          simp only [hgl, List.length_append, List.length_cons, List.length_nil]
          have := calcEvict_le c.size hsz c.sequences
          omega
    · intro last hgl hlvl hlen
      simp only [Calculation.insert, hgl]
      rw [if_neg (by simp [hlvl])]
      simp only [hgl]
      rw [calcEvict_eq_tail c.size hsz c.sequences hlen]

/-- Witness for C10: inserting into a full size-3 buffer evicts the
oldest entry and keeps the length at 3. -/
theorem insert_preserves_window_bound_witness :
    (smallFilterSample.insert (seqOff 4 4)).unfiltered =
      [seqOff 2 2, seqOff 3 3, seqOff 4 4] ∧
    (smallFilterSample.insert (seqOff 4 4)).unfiltered.length ≤ 3 := by
  have h := insert_preserves_window_bound.1 smallFilterSample (seqOff 4 4) (by decide)
  refine ⟨?_, h.1⟩
  have h2 := h.2 (seqOff 3 3) (by decide) rfl (by decide)
  rw [h2]
  decide

/-! Sorting lemmas for the median-offset filter. -/

theorem insertByOffset_perm (x : Sequence) :
    ∀ l : List Sequence, List.Perm (insertByOffset x l) (x :: l) := by
  intro l
  induction l with
  | nil => simp [insertByOffset]
  | cons y rest ih =>
    simp only [insertByOffset]
    split
    · exact List.Perm.refl _
    · exact (ih.cons y).trans (List.Perm.swap x y rest)

theorem sortByOffset_perm : ∀ l : List Sequence, List.Perm (sortByOffset l) l := by
  intro l
  induction l with
  | nil => simp [sortByOffset]
  | cons a rest ih =>
    simp only [sortByOffset, List.foldr_cons]
    exact (insertByOffset_perm a _).trans (ih.cons a)

theorem insertByOffset_pairwise (x : Sequence) :
    ∀ l : List Sequence, l.Pairwise (fun a b => a.offset ≤ b.offset) →
      (insertByOffset x l).Pairwise (fun a b => a.offset ≤ b.offset) := by
  intro l
  induction l with
  | nil => intro _; simp [insertByOffset]
  | cons y rest ih =>
    intro hp
    rcases List.pairwise_cons.mp hp with ⟨hy, hrest⟩
    simp only [insertByOffset]
    split
    · next hlt =>
      refine List.pairwise_cons.mpr ⟨?_, hp⟩
      intro b hb
      rcases List.mem_cons.mp hb with rfl | hbr
      · exact le_of_lt hlt
      · exact le_trans (le_of_lt hlt) (hy b hbr)
    · next hnlt =>
      have hyx : y.offset ≤ x.offset := le_of_not_lt hnlt
      refine List.pairwise_cons.mpr ⟨?_, ih hrest⟩
      intro b hb
      have hbm : b ∈ x :: rest := (insertByOffset_perm x rest).mem_iff.mp hb
      rcases List.mem_cons.mp hbm with rfl | hbr
      · exact hyx
      · exact hy b hbr

theorem sortByOffset_pairwise :
    ∀ l : List Sequence, (sortByOffset l).Pairwise (fun a b => a.offset ≤ b.offset) := by
  intro l
  induction l with
  | nil => simp [sortByOffset]
  | cons a rest ih =>
    simp only [sortByOffset, List.foldr_cons]
    exact insertByOffset_pairwise a _ ih

theorem medianDrain_eq_spec :
    ∀ (k : Nat) (l : List Sequence), medianDrain k l = medianSpecDrain k l := by
  intro k
  induction k with
  | zero => intro l; rfl
  | succ n ih =>
    intro l
    simp only [medianDrain, medianSpecDrain]
    have hidx : l.length / 2 = medianSpecIndex l.length := by
      simp only [medianSpecIndex]
      split <;> omega
    by_cases hlen : 2 < l.length
    · rw [if_pos hlen, if_pos (by omega : 3 ≤ l.length), hidx]
      cases h : l[medianSpecIndex l.length]? with
      | none => simp [h]
      | some x => simp [h, ih]
    · rw [if_neg hlen, if_neg (by omega : ¬ 3 ≤ l.length)]

/-- Claim C8: a full median-offset filter sorts its buffer by offset
ascending (a sorted permutation of the buffered sequences) and extracts
the middle element up to `pick` times — the upper median when the current
count is even — stopping as soon as fewer than 3 unfiltered sequences
remain; every non-extracted sequence is discarded. -/
theorem medianOffset_filter_follows_spec :
    (∀ l : List Sequence,
       (sortByOffset l).Pairwise (fun a b => a.offset ≤ b.offset) ∧
       List.Perm (sortByOffset l) l) ∧
    (∀ f : Filter, f.full = true →
       MedianOffset.filter f =
         ({ f with unfiltered := [] },
          medianSpecDrain f.pick (sortByOffset f.unfiltered))) := by
  constructor
  · intro l
    exact ⟨sortByOffset_pairwise l, sortByOffset_perm l⟩
  · intro f hfull
    have hle : f.size ≤ f.unfiltered.length := by
      have := of_decide_eq_true hfull
      exact this
    simp only [MedianOffset.filter]
    rw [if_neg (by omega), medianDrain_eq_spec]

/-- Witness for C8: a full size-4 pick-2 median filter over offsets
30, 10, 20, 40 sorts to 10, 20, 30, 40 and extracts 30 (upper median of
four) and then 20 (median of the remaining three). -/
theorem medianOffset_filter_witness :
    MedianOffset.filter medianFilterSample =
      ({ medianFilterSample with unfiltered := [] },
       medianSpecDrain medianFilterSample.pick (sortByOffset medianFilterSample.unfiltered)) ∧
    (MedianOffset.filter medianFilterSample).2 = [seqOff 1 30, seqOff 3 20] := by
  refine ⟨medianOffset_filter_follows_spec.2 medianFilterSample (by decide), by decide⟩

/-! Projection lemmas for the reach/state handlers. -/

theorem foldInsert_reach (l : List Sequence) :
    ∀ s : ServerS,
      (l.foldl (fun (s : ServerS) (q : Sequence) =>
        let s := s.pushHistory q.offset
        { s with calculation := s.calculation.insert q }) s).reach = s.reach := by
  induction l with
  | nil => intro s; rfl
  | cons q rest ih =>
    intro s
    rw [List.foldl_cons, ih]
    rfl

theorem onSequenceComplete_reach (st : ServerS) (seq : Sequence) :
    (st.onSequenceComplete seq).reach = ((st.reach <<< 1) % 65536) ||| 1 := by
  simp only [ServerS.onSequenceComplete]
  split_ifs <;> simp [foldInsert_reach]

theorem shifted_mod_even (r : Nat) : ((r <<< 1) % 65536) % 2 = 0 := by
  rw [Nat.shiftLeft_eq, pow_one]
  omega

theorem shifted_mod_lt (r : Nat) : (r <<< 1) % 65536 < 65536 := by omega

theorem onSequenceTimeout_reach (st : ServerS) (seq : Sequence) :
    (st.onSequenceTimeout seq).reach = (st.reach <<< 1) % 65536 := by
  have hmask := even_and_fffe ((st.reach <<< 1) % 65536)
    (shifted_mod_even st.reach) (shifted_mod_lt st.reach)
  simp only [ServerS.onSequenceTimeout]
  split_ifs <;> simp [ServerS.pushHistory, hmask]

theorem remove_reset (c : Calculation) : (c.reset).remove = c.reset := by
  cases c
  rfl

theorem onSequenceTimeout_reach_zero (st : ServerS) (seq : Sequence)
    (h : (st.onSequenceTimeout seq).reach = 0) :
    (st.onSequenceTimeout seq).state = .unreachable ∧
    (st.onSequenceTimeout seq).calculation = st.calculation.reset := by
  have hr := onSequenceTimeout_reach st seq
  have hmask := even_and_fffe ((st.reach <<< 1) % 65536)
    (shifted_mod_even st.reach) (shifted_mod_lt st.reach)
  rw [hr] at h
  simp only [ServerS.onSequenceTimeout]
  split_ifs <;> simp_all [ServerS.pushHistory, remove_reset]

theorem reset_projections (c : Calculation) :
    (c.reset).valid = false ∧ (c.reset).delay = 0 ∧ (c.reset).offset = 0 ∧
    (c.reset).drift = 0 ∧ (c.reset).sequences = [] := by
  simp [Calculation.reset, Calculation.clearLocked]

theorem timeoutIter_reach (st : ServerS) (seq : Sequence) (h : st.reach = 65535) :
    ∀ n : Nat, (timeoutIter st seq n).reach = (2 ^ n * 65535) % 65536 := by
  intro n
  induction n with
  | zero =>
    show st.reach = (1 * 65535) % 65536
    rw [h]
  | succ n ih =>
    have hstep : timeoutIter st seq (n + 1) = (timeoutIter st seq n).onSequenceTimeout seq := rfl
    rw [hstep, onSequenceTimeout_reach, Nat.shiftLeft_eq, pow_one, ih, pow_succ]
    generalize (2 : Nat) ^ n = a
    omega

/-- Claim C3: completing a request sequence updates the 16-bit reach
register to (reach << 1) | 1 and a timeout updates it to reach << 1 with
the low bit cleared; a timeout that makes reach 0 drives the server to
Unreachable and resets the calculation (valid, delay, offset, drift
cleared, window emptied).  From reach = 0xffff, four consecutive timeouts
give 0xfff0 and sixteen give 0 with the server Unreachable and the window
cleared. -/
theorem reach_register_updates :
    (∀ (st : ServerS) (seq : Sequence),
       (st.onSequenceComplete seq).reach = ((st.reach <<< 1) ||| 1) % 65536) ∧
    (∀ (st : ServerS) (seq : Sequence),
       (st.onSequenceTimeout seq).reach = (st.reach <<< 1) % 65536) ∧
    (∀ (st : ServerS) (seq : Sequence), (st.onSequenceTimeout seq).reach = 0 →
       (st.onSequenceTimeout seq).state = .unreachable ∧
       (st.onSequenceTimeout seq).calculation.valid = false ∧
       (st.onSequenceTimeout seq).calculation.delay = 0 ∧
       (st.onSequenceTimeout seq).calculation.offset = 0 ∧
       (st.onSequenceTimeout seq).calculation.drift = 0 ∧
       (st.onSequenceTimeout seq).calculation.sequences = []) ∧
    (∀ (st : ServerS) (seq : Sequence), st.reach = 0xffff →
       (timeoutIter st seq 4).reach = 0xfff0 ∧
       (timeoutIter st seq 16).reach = 0 ∧
       (timeoutIter st seq 16).state = .unreachable ∧
       (timeoutIter st seq 16).calculation.sequences = []) := by
  refine ⟨?_, onSequenceTimeout_reach, ?_, ?_⟩
  · intro st seq
    rw [onSequenceComplete_reach]
    have h1 := even_lor_one ((st.reach <<< 1) % 65536) (shifted_mod_even st.reach)
    have h2 : (st.reach <<< 1) % 2 = 0 := by
      rw [Nat.shiftLeft_eq, pow_one]; omega
    rw [h1, even_lor_one _ h2]
    omega
  · intro st seq h
    obtain ⟨hst, hcalc⟩ := onSequenceTimeout_reach_zero st seq h
    obtain ⟨hv, hd, ho, hdr, hs⟩ := reset_projections st.calculation
    rw [hcalc]
    exact ⟨hst, hv, hd, ho, hdr, hs⟩
  · intro st seq h
    have h4 := timeoutIter_reach st seq h 4
    have h15 := timeoutIter_reach st seq h 15
    have h16 := timeoutIter_reach st seq h 16
    norm_num at h4 h15 h16
    have hz : ((timeoutIter st seq 15).onSequenceTimeout seq).reach = 0 := h16
    obtain ⟨hst, hcalc⟩ := onSequenceTimeout_reach_zero (timeoutIter st seq 15) seq hz
    refine ⟨h4, h16, hst, ?_⟩
    show ((timeoutIter st seq 15).onSequenceTimeout seq).calculation.sequences = []
    rw [hcalc]
    exact (reset_projections _).2.2.2.2

/-- Witness for C3: a concrete server with reach 0xffff decays to 0xfff0
after four timeouts and to 0 (Unreachable, window cleared) after
sixteen. -/
theorem reach_register_updates_witness :
    (timeoutIter serverSampleReach seqTimedOut 4).reach = 0xfff0 ∧
    (timeoutIter serverSampleReach seqTimedOut 16).reach = 0 ∧
    (timeoutIter serverSampleReach seqTimedOut 16).state = .unreachable ∧
    (timeoutIter serverSampleReach seqTimedOut 16).calculation.sequences = [] :=
  reach_register_updates.2.2.2 serverSampleReach seqTimedOut rfl

/-! Preservation of the reach/state coupling. -/

theorem onSequenceComplete_reach_ne_zero (st : ServerS) (seq : Sequence) :
    (st.onSequenceComplete seq).reach ≠ 0 := by
  rw [onSequenceComplete_reach,
    even_lor_one ((st.reach <<< 1) % 65536) (shifted_mod_even st.reach)]
  omega

theorem inv_scanSeqsBounded (msg : PTP2Message) (tlv : FlashPTPRespTLV)
    (lvl : PTPTimestampLevel) (ts : Option PTP2Timestamp) :
    ∀ (n : Nat) (l : List Sequence), l.length ≤ n → ∀ st : ServerS,
      (st.reach = 0 → st.state = .unreachable ∨ st.state = .initializing) →
      ((scanSeqs msg tlv lvl ts st l).1.reach = 0 →
       (scanSeqs msg tlv lvl ts st l).1.state = .unreachable ∨
       (scanSeqs msg tlv lvl ts st l).1.state = .initializing) := by
  intro n
  induction n with
  | zero =>
    intro l hl st h
    cases l with
    | nil => exact h
    | cons a rest => simp at hl
  | succ n ih =>
    intro l hl st h
    cases l with
    | nil => exact h
    | cons seq rest =>
      simp only [List.length_cons] at hl
      simp only [scanSeqs]
      split
      · exact ih rest (by omega) st h
      · split
        · intro hz
          exact Or.inl (onSequenceTimeout_reach_zero st seq hz).1
        · split
          · split
            · cases rest with
              | nil =>
                intro hz
                exact absurd hz (onSequenceComplete_reach_ne_zero st _)
              | cons x rest2 =>
                dsimp only
                exact ih rest2 (by simp at hl; omega) _
                  (fun hz => absurd hz (onSequenceComplete_reach_ne_zero st _))
            · exact h
          · exact h

theorem inv_scanSeqs (msg : PTP2Message) (tlv : FlashPTPRespTLV)
    (lvl : PTPTimestampLevel) (ts : Option PTP2Timestamp)
    (l : List Sequence) (st : ServerS)
    (h : st.reach = 0 → st.state = .unreachable ∨ st.state = .initializing) :
    (scanSeqs msg tlv lvl ts st l).1.reach = 0 →
    (scanSeqs msg tlv lvl ts st l).1.state = .unreachable ∨
    (scanSeqs msg tlv lvl ts st l).1.state = .initializing :=
  inv_scanSeqsBounded msg tlv lvl ts l.length l (le_refl _) st h

theorem inv_sweepSeqs :
    ∀ (l : List Sequence) (st : ServerS),
      (st.reach = 0 → st.state = .unreachable ∨ st.state = .initializing) →
      ((sweepSeqs st l).1.reach = 0 →
       (sweepSeqs st l).1.state = .unreachable ∨
       (sweepSeqs st l).1.state = .initializing) := by
  intro l
  induction l with
  | nil => intro st h; exact h
  | cons seq rest ih =>
    intro st h
    simp only [sweepSeqs]
    split
    · exact ih _ (fun hz => Or.inl (onSequenceTimeout_reach_zero st seq hz).1)
    · exact ih st h

/-- Amended claim C4: at every reachable point of a client-side server's
lifetime, reach = 0 implies that its state is Unreachable or (right after
a reset, before any sequence has been exchanged) Initializing. -/
theorem reach_zero_state_invariant :
    ∀ st : ServerS, ServerSReachable st → st.reach = 0 →
      st.state = .unreachable ∨ st.state = .initializing := by
  intro st h
  induction h with
  | start st0 => intro _; right; rfl
  | step hr hstep ih =>
    cases hstep with
    | reset => intro _; right; rfl
    | addSeq seq => exact ih
    | setClock name id => exact ih
    | rx msg tlv lvl ts => exact inv_scanSeqs msg tlv lvl ts _ _ ih
    | sweep => exact inv_sweepSeqs _ _ ih
    | mark s hguard hs =>
      intro hz
      have h1 := ih hz
      rcases h1 with h1 | h1 <;>
        rw [h1] at hguard <;> simp [ServerState.toNat] at hguard

/-- Counterexample to claim C4 as stated: immediately after
Server::resetState, reach is 0 but the state is Initializing, not
Unreachable. -/
theorem reach_zero_after_reset_not_unreachable :
    (ServerS.resetState serverSampleReach).reach = 0 ∧
    (ServerS.resetState serverSampleReach).state = .initializing ∧
    (ServerS.resetState serverSampleReach).state ≠ .unreachable := by decide

/-- Witness for the amended C4 at a concrete reachable state. -/
theorem reach_zero_state_invariant_witness :
    (ServerS.resetState serverSampleReach).state = .unreachable ∨
    (ServerS.resetState serverSampleReach).state = .initializing :=
  reach_zero_state_invariant _ (ServerSReachable.start serverSampleReach) (by decide)

theorem scanSeqs_duplicate_unchanged (msg : PTP2Message) (tlv : FlashPTPRespTLV)
    (lvl : PTPTimestampLevel) (ts : Option PTP2Timestamp)
    (seq : Sequence) (post : List Sequence)
    (hid : seq.sequenceID = msg.seqID)
    (hto : seq.timedOut = false)
    (hdup : (msg.msgType = syncMsgType ∧ seq.hasT4 = true) ∨
            (msg.msgType = followUpMsgType ∧ seq.hasT3 = true)) :
    ∀ pre : List Sequence, (∀ x ∈ pre, x.sequenceID ≠ msg.seqID) →
      ∀ st : ServerS,
        scanSeqs msg tlv lvl ts st (pre ++ seq :: post) = (st, pre ++ seq :: post) := by
  intro pre
  induction pre with
  | nil =>
    intro _ st
    simp only [List.nil_append, scanSeqs]
    rw [if_neg (by simp [hid]), if_neg (by simp [hto]), if_neg ?_]
    rcases hdup with ⟨hm, h4⟩ | ⟨hm, h3⟩
    · simp [hm, h4, syncMsgType, followUpMsgType]
    · simp [hm, h3, syncMsgType, followUpMsgType]
  | cons p pre' ih =>
    intro hpre st
    simp only [List.cons_append, scanSeqs]
    rw [if_pos (hpre p (List.mem_cons_self p pre'))]
    rw [ih (fun x hx => hpre x (List.mem_cons_of_mem p hx)) st]

/-- Amended claim C9: a Sync response matching a stored sequence that
already has T4, or a FollowUp response for a stored sequence that already
has T3, leaves the whole per-server state unchanged — provided the
matched sequence has not timed out (a timed-out match is instead removed
with timeout processing). -/
theorem duplicate_response_ignored :
    ∀ (st : ServerS) (msg : PTP2Message) (tlv : FlashPTPRespTLV)
      (lvl : PTPTimestampLevel) (ts : Option PTP2Timestamp)
      (pre : List Sequence) (seq : Sequence) (post : List Sequence),
      st.sequences = pre ++ seq :: post →
      (∀ x ∈ pre, x.sequenceID ≠ msg.seqID) →
      seq.sequenceID = msg.seqID →
      seq.timedOut = false →
      ((msg.msgType = syncMsgType ∧ seq.hasT4 = true) ∨
       (msg.msgType = followUpMsgType ∧ seq.hasT3 = true)) →
      st.processMessage msg tlv lvl ts = st := by
  intro st msg tlv lvl ts pre seq post hseq hpre hid hto hdup
  simp only [ServerS.processMessage, hseq]
  rw [scanSeqs_duplicate_unchanged msg tlv lvl ts seq post hid hto hdup pre hpre st, ← hseq]

/-- Counterexample to claim C9 as stated: when the matched stored
sequence has already timed out, the duplicate Sync response is not
ignored — the sequence is removed and the reach register shifts. -/
theorem duplicate_response_changes_state_when_timed_out :
    serverSampleDup.reach = 1 ∧
    (serverSampleDup.processMessage msgSyncDup tlvNone .user (some ⟨0, 200⟩)).reach = 2 ∧
    serverSampleDup.processMessage msgSyncDup tlvNone .user (some ⟨0, 200⟩) ≠
      serverSampleDup := by decide

/-- Witness for the amended C9: a live stored sequence with T4 already
set is left untouched by a duplicate Sync response. -/
theorem duplicate_response_ignored_witness :
    serverSampleLive.processMessage msgSyncDup tlvNone .user (some ⟨0, 200⟩) =
      serverSampleLive :=
  duplicate_response_ignored serverSampleLive msgSyncDup tlvNone .user (some ⟨0, 200⟩)
    [] seqStored7 [] rfl (by simp) (by decide) (by decide) (Or.inl ⟨rfl, by decide⟩)

/-- Counterexample to claim C2 as stated: the fallback classification
routes a message with log message period 0x7f to the response direction
(the claim says request), and a transmitted Sync Request carries the
configured interval (0 by default), not 0x7f. -/
theorem logMsgPeriod_direction_counterexample :
    ServerMode.classifyDirection 0x7f none = .response ∧
    ClientMode.classifyDirection 0x7f none = .response ∧
    (clientBuildSyncRequest 0 0 false false 0).logMsgPeriod = 0 ∧
    ((0 : Int) ≠ 0x7f) := by decide

set_option maxHeartbeats 2000000 in
/-- Amended claim C2: the log-message-period convention is the inverse of
the claimed one — transmitted Sync/FollowUp Requests carry the configured
log2 request interval (in [−7, 7], hence never 0x7f), every transmitted
Sync/FollowUp Response carries 0x7f, and a received message without a
decisive flashPTP TLV is classified into the request direction exactly
when its log message period differs from 0x7f (both dispatchers agree). -/
theorem logMsgPeriod_direction_convention :
    (∀ (interval : Int) (sequenceID : Nat) (oneStep syncTLV : Bool) (tlvLen : Nat),
       (clientBuildSyncRequest interval sequenceID oneStep syncTLV tlvLen).logMsgPeriod =
         interval) ∧
    (∀ (interval : Int) (sequenceID : Nat) (syncTLV : Bool) (tlvLen : Nat)
       (lvl : PTPTimestampLevel),
       (clientBuildFollowUpRequest interval sequenceID syncTLV tlvLen lvl).logMsgPeriod =
         interval) ∧
    (∀ interval : Int, -7 ≤ interval → interval ≤ 7 → interval ≠ 0x7f) ∧
    (∀ (ds : FlashPTPServerStateDS) (listeners : List Listener) (req : Request)
       (iface : Option String) (ifClockID : Nat) (nowTs : PTP2Timestamp)
       (sendOk : Bool) (achieved : PTPTimestampLevel) (txTs : PTP2Timestamp)
       (res : ServerModeResult),
       ServerMode.processRequest ds listeners req iface ifClockID nowTs sendOk
           achieved txTs = some res →
       res.syncMsg.logMsgPeriod = 0x7f ∧
       ∀ fu, res.followUp = some fu → fu.logMsgPeriod = 0x7f) ∧
    (∀ lmp : Int,
       ServerMode.classifyDirection lmp none = ClientMode.classifyDirection lmp none) ∧
    (∀ lmp : Int, ServerMode.classifyDirection lmp none = .request ↔ lmp ≠ 0x7f) := by
  refine ⟨fun _ _ _ _ _ => rfl, fun _ _ _ _ _ => rfl, ?_, ?_, ?_, ?_⟩
  · intro interval h1 h2
    omega
  · intro ds listeners req iface ifClockID nowTs sendOk achieved txTs res hres
    cases iface with
    | none => exact absurd hres (by simp [ServerMode.processRequest])
    | some s =>
      simp only [ServerMode.processRequest] at hres
      split_ifs at hres <;>
          (replace hres := Option.some.inj hres) <;> subst hres <;>
        refine ⟨rfl, ?_⟩ <;> intro fu hfu <;>
          first
            | exact Option.noConfusion hfu
            | (simp only [Option.some.injEq] at hfu; subst hfu; rfl)
  · intro lmp
    by_cases h : lmp = 0x7f <;>
      simp [ServerMode.classifyDirection, ClientMode.classifyDirection, h]
  · intro lmp
    by_cases h : lmp = 0x7f <;>
      simp [ServerMode.classifyDirection, h]

/-- Witness for the amended C2: interval 0 is a legal request interval
distinct from 0x7f, and a concrete server-mode response carries log
message period 0x7f. -/
theorem logMsgPeriod_direction_witness :
    ((0 : Int) ≠ 0x7f) ∧
    (ServerMode.processRequest FlashPTPServerStateDS.zero [] reqNoUtc (some "eth0") 0
        ⟨0, 0⟩ true .user ⟨0, 60⟩).map (fun r => r.syncMsg.logMsgPeriod) = some 0x7f := by
  refine ⟨logMsgPeriod_direction_convention.2.2.1 0 (by decide) (by decide), ?_⟩
  rcases hres : ServerMode.processRequest FlashPTPServerStateDS.zero [] reqNoUtc
      (some "eth0") 0 ⟨0, 0⟩ true .user ⟨0, 60⟩ with _ | r
  · exact absurd hres (by decide)
  · have h := (logMsgPeriod_direction_convention.2.2.2.1 FlashPTPServerStateDS.zero []
      reqNoUtc (some "eth0") 0 ⟨0, 0⟩ true .user ⟨0, 60⟩ r hres).1
    simp [h]

/-- Counterexample to claim C7 as stated: a two-step request with the
TLV on the FollowUp whose requested socket-level TX timestamp degrades to
user level is answered with error 0 — the TX_TIMESTAMP_INVALID bit is
only transmitted when a UTC offset was available (hardware level with a
matching listener) or the seqID > 3000 debug heuristic fires. -/
theorem followUp_error_bit_missing_counterexample :
    (ServerMode.processRequest FlashPTPServerStateDS.zero [] reqNoUtc (some "eth0") 0
        ⟨0, 0⟩ true .user ⟨0, 60⟩).map
      (fun r => (r.tlv.error, r.followUp.isSome)) = some (0, true) ∧
    PTPTimestampLevel.user ≠ reqNoUtc.timestampLevel := by decide

/-- Amended claim C7: when server mode answers a two-step Sync Request
whose response TLV rides on the FollowUp, the achieved TX timestamp level
differs from the requested one, and a UTC offset had been determined for
the response (requested level hardware with a listener on the ingress
interface) — or the seqID > 3000 debug heuristic applies — then the
FollowUp TLV carries the TX_TIMESTAMP_INVALID error bit and the
UTC-reasonable/timescale flags and UTC offset are omitted. -/
theorem followUp_tx_timestamp_error_bit :
    ∀ (ds : FlashPTPServerStateDS) (listeners : List Listener) (req : Request)
      (iface : String) (ifClockID : Nat) (nowTs txTs : PTP2Timestamp)
      (achieved : PTPTimestampLevel) (res : ServerModeResult),
      req.oneStep = false → req.syncTLV = false →
      (ServerMode.respUtcOffset listeners iface req.timestampLevel ≠ int16Max ∨
        3000 < req.sequenceID) →
      achieved ≠ req.timestampLevel →
      ServerMode.processRequest ds listeners req (some iface) ifClockID nowTs true
          achieved txTs = some res →
      res.tlv.error &&& FLASH_PTP_ERROR_TX_TIMESTAMP_INVALID ≠ 0 ∧
      (∀ fu, res.followUp = some fu →
        fu.flags.utcReasonable = false ∧ fu.flags.timescale = false) ∧
      res.tlv.utcOffset = 0 ∧
      res.followUp.isSome = true := by
  intro ds listeners req iface ifClockID nowTs txTs achieved res h1 h2 hutc hach hres
  simp only [ServerMode.processRequest, h1, h2, Bool.false_eq_true, false_and,
    if_false, ite_false, Bool.not_false, or_self, ite_true] at hres
  rw [if_neg (by simp)] at hres
  rw [if_pos hutc, if_pos (Or.inl hach)] at hres
  replace hres := Option.some.inj hres
  subst hres
  refine ⟨?_, ?_, ?_, rfl⟩
  · split_ifs <;>
      exact (by decide :
        (((0 : Nat) ||| FLASH_PTP_ERROR_TX_TIMESTAMP_INVALID) &&&
          FLASH_PTP_ERROR_TX_TIMESTAMP_INVALID) ≠ 0)
  · intro fu hfu
    replace hfu := Option.some.inj hfu
    subst hfu
    exact ⟨rfl, rfl⟩
  · split_ifs <;> rfl

/-- Witness for the amended C7: a hardware-level request through a
listener on eth0 whose Sync response only achieves socket level gets the
error bit and no UTC offset in the FollowUp TLV. -/
theorem followUp_tx_timestamp_error_bit_witness :
    (ServerMode.processRequest FlashPTPServerStateDS.zero [listenerEth0] reqHw
        (some "eth0") 0 ⟨0, 0⟩ true .socket ⟨0, 60⟩).isSome = true ∧
    (ServerMode.processRequest FlashPTPServerStateDS.zero [listenerEth0] reqHw
        (some "eth0") 0 ⟨0, 0⟩ true .socket ⟨0, 60⟩).map
      (fun r => decide (r.tlv.error &&& FLASH_PTP_ERROR_TX_TIMESTAMP_INVALID ≠ 0)) =
        some true ∧
    (ServerMode.processRequest FlashPTPServerStateDS.zero [listenerEth0] reqHw
        (some "eth0") 0 ⟨0, 0⟩ true .socket ⟨0, 60⟩).map
      (fun r => r.tlv.utcOffset) = some 0 := by
  rcases hres : ServerMode.processRequest FlashPTPServerStateDS.zero [listenerEth0] reqHw
      (some "eth0") 0 ⟨0, 0⟩ true .socket ⟨0, 60⟩ with _ | r
  · exact absurd hres (by decide)
  · have h := followUp_tx_timestamp_error_bit FlashPTPServerStateDS.zero [listenerEth0]
      reqHw "eth0" 0 ⟨0, 0⟩ ⟨0, 60⟩ .socket r (by decide) (by decide)
      (Or.inl (by decide)) (by decide) hres
    refine ⟨rfl, ?_, ?_⟩
    · simp [h.1]
    · simp [h.2.2.1]

/-- Counterexample to claim C6 as stated: with stepThreshold 0 the mean
offset magnitude (5 ns) is at least the threshold, yet no time step is
issued — a zero threshold disables the step path and the controller slews
instead. -/
theorem pid_zero_threshold_no_step :
    (cfgNoThreshold.stepThreshold : Int) ≤ |meanOffset64 [srvSlew]| ∧
    (PIDController.adjust cfgNoThreshold 1 pidZero (some 0) [srvSlew]).map
      (fun r => r.calls.countP
        (fun c => match c with | .setOffset _ => true | _ => false)) = some 0 := by decide

/-- Amended claim C6: on a PID adjustment tick with a nonzero
stepThreshold and a mean offset of magnitude at least the threshold, the
frequency aggregate is advanced by exactly the mean drift of the selected
servers (the retained frequency addend ends the tick at 0), exactly one
time step by the computed mean offset is issued, and no proportional term
is computed that tick. -/
theorem pid_step_path :
    ∀ (cfg : PIDConfig) (clockID : Int) (st : PIDState) (fr : Int)
      (servers : List SelectedServer),
      servers ≠ [] →
      (∀ s ∈ servers, s.hasAdjustment = true ∧ s.clockID = clockID) →
      clockID ≠ -1 →
      cfg.stepThreshold ≠ 0 →
      (cfg.stepThreshold : Int) ≤ |meanOffset64 servers| →
      PIDController.adjust cfg clockID st (some fr) servers = some
        { state := { st with freqAddend := 0,
                             integral := st.integral + st.freqAddend * cfg.ki,
                             timeAddend := meanOffset64 servers },
          freqAggregate := (fr : ℚ) / 65536000000 -
            (st.freqAddend - st.freqAddend * cfg.ki) + meanDrift servers,
          calls := [AdjCall.setOffset (meanOffset64 servers),
                    AdjCall.setFreq (saturateFreq ((fr : ℚ) / 65536000000 -
                      (st.freqAddend - st.freqAddend * cfg.ki) + meanDrift servers))] } := by
  intro cfg clockID st fr servers hne hsrv hck hth hmag
  have hinit : Adjustment.initAdj clockID servers = true := by
    simp only [Adjustment.initAdj]
    rw [if_neg hck]
    cases servers with
    | nil => exact absurd rfl hne
    | cons a rest =>
      simp only [List.isEmpty_cons, if_false, Bool.false_eq_true, ite_false]
      refine List.all_eq_true.mpr ?_
      intro x hx
      rcases hsrv x hx with ⟨ha, hc⟩
      simp [ha, hc]
  have hμ : meanOffset64 servers ≠ 0 := by
    intro h0
    rw [h0] at hmag
    simp only [abs_zero] at hmag
    have : (0 : Int) < (cfg.stepThreshold : Int) := by
      exact_mod_cast Nat.pos_of_ne_zero hth
    omega
  simp only [PIDController.adjust, hinit, Bool.true_eq_false, if_false, ite_false]
  rw [if_pos ⟨hth, hmag⟩, if_pos hμ]
  rfl

/-- Witness for the amended C6 at spec §8 scenario 5: stepThreshold 1 ms,
one selected server with offset 2 ms and drift 0 yields exactly one time
step of +2 ms and a final frequency addend of 0. -/
theorem pid_step_path_witness :
    PIDController.adjust cfgStep 1 pidZero (some 0) [srvStep] = some
      { state := { pidZero with freqAddend := 0,
                                integral := pidZero.integral + pidZero.freqAddend * cfgStep.ki,
                                timeAddend := meanOffset64 [srvStep] },
        freqAggregate := ((0 : Int) : ℚ) / 65536000000 -
          (pidZero.freqAddend - pidZero.freqAddend * cfgStep.ki) + meanDrift [srvStep],
        calls := [AdjCall.setOffset (meanOffset64 [srvStep]),
                  AdjCall.setFreq (saturateFreq (((0 : Int) : ℚ) / 65536000000 -
                    (pidZero.freqAddend - pidZero.freqAddend * cfgStep.ki) +
                    meanDrift [srvStep]))] } ∧
    meanOffset64 [srvStep] = 2000000 := by
  refine ⟨pid_step_path cfgStep 1 pidZero 0 [srvStep] (by decide) ?_ (by decide)
    (by decide) (by decide), by decide⟩
  intro s hs
  rcases List.mem_singleton.mp hs with rfl
  exact ⟨rfl, rfl⟩

end FlashPTP
